import Mathlib

/-!
# Verification of the `safestring` module

Shallow embedding of `uweb3/ext_lib/underdark/libs/safestring/__init__.py`:
a family of `str` subclasses (`Basesafestring` and its concrete contexts
`HTMLsafestring`, `JSONsafestring`, `URLqueryargumentsafestring`,
`URLsafestring`, `EmailAddresssafestring`, `MYSQLsafestring`), together with
the upgrade rule used by `__add__` and `format`, and the per-context
`escape`/`unescape` algorithms the module delegates to
(`html.escape`/`html.unescape`, `json.dumps`/`json.loads`,
`urllib.parse.quote_plus`/`unquote_plus`, `urllib.parse.urlparse().geturl()`,
a regular-expression address extractor, and the hand-rolled parameterized
SQL substitution).

Python strings are modelled as `List Char` internally and `String` at the
interface; machine behavior that the claims exercise (character-exact
escaping, whitespace splitting, placeholder substitution, truncation) is
translated from the CPython sources the module calls into.  All definitions
are executable and use structural recursion (scanners that consume a data
suffix per step take a fuel argument bounded by the input length).
-/

/-- The classes of the `safestring` module.  `base` is `Basesafestring`
itself (instantiable in Python, since `__new__` does not guard the class),
`mysql` is `MYSQLsafestring`, and the rest are the concrete contexts in
source order. -/
inductive Cls where
  | base
  | html
  | json
  | urlquery
  | url
  | email
  | mysql
deriving DecidableEq

/-- The Python exception kinds raised by the modelled code paths. -/
inductive PyErr where
  | notImplementedError
  | typeError
  | valueError
  | attributeError
  | indexError
  | keyError
deriving DecidableEq

deriving instance DecidableEq for Except

/-- A Python value as the safestring operations see it: either an instance of
one of the `Basesafestring` classes (class tag plus character content — every
instance is a `str`), or plain untagged data (any other object, reaching the
module through `str(other)`). -/
inductive PyVal where
  | safe (cls : Cls) (content : String)
  | plain (content : String)
deriving DecidableEq

/-! ## Character-list helpers -/

/-- The apostrophe character, written by code point so that quote handling
stays visible in the definitions that depend on it. -/
def aposC : Char := Char.ofNat 39

/-- Membership test, as Python `c in s`. -/
def containsC (l : List Char) (c : Char) : Bool := l.any (fun x => x = c)

/-- Python `str.replace` for a single-character pattern: every occurrence of
`c` becomes `rep`. -/
def replace1 (c : Char) (rep : List Char) : List Char → List Char
  | [] => []
  | x :: xs => (if x = c then rep else [x]) ++ replace1 c rep xs

/-- Concatenation of a per-character encoder over the input. -/
def escCat (f : Char → List Char) : List Char → List Char
  | [] => []
  | c :: rest => f c ++ escCat f rest

/-- Index of the first occurrence of a character, as Python `str.find`. -/
def idxOfC (c : Char) : List Char → Option Nat
  | [] => none
  | x :: xs => if x = c then some 0 else (idxOfC c xs).map (· + 1)

/-- Index of the first occurrence of `pat` as a contiguous sublist, as Python
`str.find` / `str.index` on a substring. -/
def idxOfSub (pat : List Char) : List Char → Option Nat
  | [] => if pat = [] then some 0 else none
  | x :: xs =>
    if List.isPrefixOf pat (x :: xs) then some 0 else (idxOfSub pat xs).map (· + 1)

/-- Hexadecimal digit test (both cases), as the regex class `[0-9a-fA-F]`. -/
def isHexDigitC (c : Char) : Bool :=
  c.isDigit || ('a' ≤ c && c ≤ 'f') || ('A' ≤ c && c ≤ 'F')

/-- Value of one hexadecimal digit. -/
def hexDigitValC (c : Char) : Nat :=
  if c.isDigit then c.toNat - 48
  else if 'a' ≤ c && c ≤ 'f' then c.toNat - 87
  else c.toNat - 55

/-- Value of a hexadecimal digit string. -/
def hexValL (l : List Char) : Nat := l.foldl (fun a c => a * 16 + hexDigitValC c) 0

/-- Value of a decimal digit string. -/
def decValL (l : List Char) : Nat := l.foldl (fun a c => a * 10 + (c.toNat - 48)) 0

/-! ## `HTMLsafestring`: CPython `html.escape` and `html.unescape`

`HTMLsafestring.escape` is `html.escape(data)` (with its default
`quote=True`) and `HTMLsafestring.unescape` is `html.unescape(data)`. -/

/-- CPython `html.escape(s, quote=True)`: the five sequential `str.replace`
calls, ampersand first — `&` to `&amp;`, `<` to `&lt;`, `>` to `&gt;`, `"` to
`&quot;` and the apostrophe to `&#x27;`.  The innermost `replace1` below is
the first replace performed, so later replaces see the ampersands it
introduced exactly as CPython's later replaces do. -/
def htmlEscapeL (l : List Char) : List Char :=
  replace1 aposC ['&', '#', 'x', '2', '7', ';']
    (replace1 '"' ['&', 'q', 'u', 'o', 't', ';']
      (replace1 '>' ['&', 'g', 't', ';']
        (replace1 '<' ['&', 'l', 't', ';']
          (replace1 '&' ['&', 'a', 'm', 'p', ';'] l))))

/-- Per-character form of `html.escape`; proved equal to `htmlEscapeL` on
singletons below, which is what makes the round-trip induction go through. -/
def escChar (c : Char) : List Char :=
  if c = '&' then ['&', 'a', 'm', 'p', ';']
  else if c = '<' then ['&', 'l', 't', ';']
  else if c = '>' then ['&', 'g', 't', ';']
  else if c = '"' then ['&', 'q', 'u', 'o', 't', ';']
  else if c = aposC then ['&', '#', 'x', '2', '7', ';']
  else [c]

/-- The character class of a named reference body in CPython's `_charref`
regular expression: every character except those in the set
tab, newline, form feed, space, `<`, `&`, `#`, `;`. -/
def allowedNameChar (c : Char) : Bool :=
  !(c = '\t' || c = '\n' || c = '\x0c' || c = ' ' || c = '<' || c = '&' || c = '#' || c = ';')

/-- The rows of CPython's `html5` entity table that are reachable in this
development: the references produced by `html.escape` and their
semicolon-less variants.  The full table has about two thousand rows; a row
not present here only changes the behavior on inputs containing other named
references, which no escape output and no claim input contains. -/
def html5Lookup (s : List Char) : Option (List Char) :=
  if s = ['a', 'm', 'p', ';'] then some ['&']
  else if s = ['a', 'm', 'p'] then some ['&']
  else if s = ['l', 't', ';'] then some ['<']
  else if s = ['l', 't'] then some ['<']
  else if s = ['g', 't', ';'] then some ['>']
  else if s = ['g', 't'] then some ['>']
  else if s = ['q', 'u', 'o', 't', ';'] then some ['"']
  else if s = ['q', 'u', 'o', 't'] then some ['"']
  else if s = ['a', 'p', 'o', 's', ';'] then some [aposC]
  else none

/-- The longest-prefix fallback of CPython `html._replace_charref`: try
`s[:x]` for `x = len(s)-1` down to `2`; when nothing matches, the whole
matched region stays as literal text (`'&' + s`). -/
def fbLookup : Nat → List Char → List Char
  | 0, s => '&' :: s
  | 1, s => '&' :: s
  | Nat.succ x, s =>
    match html5Lookup (s.take (x + 1)) with
    | some v => v ++ s.drop (x + 1)
    | none => fbLookup x s

/-- CPython `html._replace_charref` on a named-reference match `s`: exact
lookup first, then the longest-prefix fallback. -/
def refReplace (s : List Char) : List Char :=
  match html5Lookup s with
  | some v => v
  | none => fbLookup (s.length - 1) s

/-- Decoding of a numeric character reference (the numeric arm of
`html._replace_charref`): surrogate and out-of-range code points become
U+FFFD.  CPython additionally remaps the Windows-1252 aliases
(`0x00`, `0x0d`, `0x80`–`0x9f`) and drops a set of invalid code points;
no input arising in this development reaches those rows, and they are not
modelled. -/
def numDecode (n : Nat) : List Char :=
  if (0xD800 ≤ n && n ≤ 0xDFFF) || 0x10FFFF < n then ['�'] else [Char.ofNat n]

/-- One attempted match of CPython's `_charref` regular expression directly
after an ampersand: a numeric reference `#digits` / `#x hexdigits` with an
optional semicolon, or a run of up to 32 name characters with an optional
semicolon.  Returns the replacement text and the remaining input, or `none`
when the expression does not match (the ampersand then stays literal). -/
def matchRef (l : List Char) : Option (List Char × List Char) :=
  match l with
  | '#' :: rest =>
    match rest with
    | [] => none
    | c :: rest2 =>
      if c = 'x' || c = 'X' then
        let ds := rest2.takeWhile isHexDigitC
        if ds = [] then none
        else
          match rest2.drop ds.length with
          | ';' :: rest4 => some (numDecode (hexValL ds), rest4)
          | rest3 => some (numDecode (hexValL ds), rest3)
      else
        let ds := rest.takeWhile Char.isDigit
        if ds = [] then none
        else
          match rest.drop ds.length with
          | ';' :: rest4 => some (numDecode (decValL ds), rest4)
          | rest3 => some (numDecode (decValL ds), rest3)
  | _ =>
    let run := (l.takeWhile allowedNameChar).take 32
    if run = [] then none
    else
      match l.drop run.length with
      | ';' :: rest2 => some (refReplace (run ++ [';']), rest2)
      | rest2 => some (refReplace run, rest2)

/-- CPython `html.unescape` as a single left-to-right scan (`re.sub` with
`_charref`): at each ampersand the reference match is attempted and, on
success, scanning resumes after the matched region.  `fuel` bounds the number
of scan steps; every step consumes at least one character, so any
`fuel ≥ length of the input` gives the real function. -/
def unescFuel : Nat → List Char → List Char
  | 0, l => l
  | _ + 1, [] => []
  | f + 1, c :: rest =>
    if c = '&' then
      match matchRef rest with
      | some (out, rem) => out ++ unescFuel f rem
      | none => '&' :: unescFuel f rest
    else c :: unescFuel f rest

/-- `HTMLsafestring.escape` = `html.escape`. -/
def htmlEscape (s : String) : String := ⟨htmlEscapeL s.data⟩

/-- `HTMLsafestring.unescape` = `html.unescape`. -/
def htmlUnescape (s : String) : String := ⟨unescFuel s.data.length s.data⟩

example : htmlEscape "<b>" = "&lt;b&gt;" := by decide
example : htmlUnescape "&lt;b&gt;&#x27;&amp;lt" = ⟨['<', 'b', '>', aposC, '&', 'l', 't']⟩ := by decide

/-! ## `JSONsafestring`: CPython `json.dumps` / `json.loads` on text

`JSONsafestring.escape` raises `TypeError` on non-`str` data and otherwise
returns `json.dumps(data)`; in this embedding data entering `escape` is
always text, so the type gate never fires.  `JSONsafestring.unescape` is
`json.loads(data)`, modelled on string-literal inputs (the shape every
`escape` output has). -/

/-- Lower-case hexadecimal digit, as used by `json.dumps` unicode escapes. -/
def hexDigitLow (n : Nat) : Char :=
  if n < 10 then Char.ofNat (48 + n) else Char.ofNat (87 + n)

/-- Four lower-case hexadecimal digits of `n % 0x10000`. -/
def hex4 (n : Nat) : List Char :=
  [hexDigitLow ((n / 4096) % 16), hexDigitLow ((n / 256) % 16),
   hexDigitLow ((n / 16) % 16), hexDigitLow (n % 16)]

/-- Per-character encoder of `json.dumps` on a `str` (default
`ensure_ascii=True`): quote and backslash get backslash escapes, the C0
controls with short forms use them, every other character outside
`0x20..0x7e` becomes `\uXXXX` (a surrogate pair above U+FFFF). -/
def jsonEscChar (c : Char) : List Char :=
  if c = '"' then ['\\', '"']
  else if c = '\\' then ['\\', '\\']
  else if c = '\n' then ['\\', 'n']
  else if c = '\r' then ['\\', 'r']
  else if c = '\t' then ['\\', 't']
  else if c = '\x08' then ['\\', 'b']
  else if c = '\x0c' then ['\\', 'f']
  else if c.toNat < 0x20 then '\\' :: 'u' :: hex4 c.toNat
  else if c.toNat ≤ 0x7e then [c]
  else if c.toNat ≤ 0xFFFF then '\\' :: 'u' :: hex4 c.toNat
  else
    ('\\' :: 'u' :: hex4 (0xD800 + (c.toNat - 0x10000) / 0x400)) ++
      ('\\' :: 'u' :: hex4 (0xDC00 + (c.toNat - 0x10000) % 0x400))

/-- `JSONsafestring.escape` = `json.dumps` on a `str`. -/
def jsonEscape (s : String) : String := ⟨'"' :: escCat jsonEscChar s.data ++ ['"']⟩

/-- JSON whitespace, as skipped by `json.loads` around the value. -/
def jsonWS (c : Char) : Bool := c = ' ' || c = '\t' || c = '\n' || c = '\r'

/-- Body parser for a JSON string literal (after the opening quote); returns
the decoded characters and the input after the closing quote.  Escapes follow
CPython `json.scanner` in strict mode: raw control characters below `0x20`
are rejected, `\uXXXX` is decoded with surrogate-pair combination.  A lone
surrogate — which CPython would keep in its `str` — has no `Char`
representation and is reported as `valueError`; no escape output contains
one.  Every step consumes at least one character, so any
`fuel ≥ length of the input` gives the real parser. -/
def jsonStrFuel : Nat → List Char → Except PyErr (List Char × List Char)
  | 0, _ => .error .valueError
  | _ + 1, [] => .error .valueError
  | f + 1, c :: rest =>
    if c = '"' then .ok ([], rest)
    else if c = '\\' then
      match rest with
      | [] => .error .valueError
      | e :: rest2 =>
        if e = 'u' then
          let ds := rest2.take 4
          if ds.length = 4 && ds.all isHexDigitC then
            let n := hexValL ds
            if 0xD800 ≤ n && n ≤ 0xDBFF then
              match rest2.drop 4 with
              | '\\' :: 'u' :: r3 =>
                let ds2 := r3.take 4
                if ds2.length = 4 && ds2.all isHexDigitC then
                  let n2 := hexValL ds2
                  if 0xDC00 ≤ n2 && n2 ≤ 0xDFFF then
                    (jsonStrFuel f (r3.drop 4)).map
                      (fun p => (Char.ofNat (0x10000 + (n - 0xD800) * 0x400 + (n2 - 0xDC00)) :: p.1, p.2))
                  else .error .valueError
                else .error .valueError
              | _ => .error .valueError
            else if 0xDC00 ≤ n && n ≤ 0xDFFF then .error .valueError
            else (jsonStrFuel f (rest2.drop 4)).map (fun p => (Char.ofNat n :: p.1, p.2))
          else .error .valueError
        else if e = '"' then (jsonStrFuel f rest2).map (fun p => ('"' :: p.1, p.2))
        else if e = '\\' then (jsonStrFuel f rest2).map (fun p => ('\\' :: p.1, p.2))
        else if e = '/' then (jsonStrFuel f rest2).map (fun p => ('/' :: p.1, p.2))
        else if e = 'b' then (jsonStrFuel f rest2).map (fun p => ('\x08' :: p.1, p.2))
        else if e = 'f' then (jsonStrFuel f rest2).map (fun p => ('\x0c' :: p.1, p.2))
        else if e = 'n' then (jsonStrFuel f rest2).map (fun p => ('\n' :: p.1, p.2))
        else if e = 'r' then (jsonStrFuel f rest2).map (fun p => ('\r' :: p.1, p.2))
        else if e = 't' then (jsonStrFuel f rest2).map (fun p => ('\t' :: p.1, p.2))
        else .error .valueError
    else if c.toNat < 0x20 then .error .valueError
    else (jsonStrFuel f rest).map (fun p => (c :: p.1, p.2))

/-- `JSONsafestring.unescape` = `json.loads`, modelled on string-literal
inputs.  Other well-formed JSON decodes to non-string Python objects, which
every caller in the module then feeds to an `escape` expecting text; those
inputs are reported as `valueError` here. -/
def jsonUnescape (s : String) : Except PyErr String :=
  match s.data.dropWhile jsonWS with
  | '"' :: rest =>
    match jsonStrFuel rest.length rest with
    | .ok (cs, remaining) =>
      if remaining.dropWhile jsonWS = [] then .ok ⟨cs⟩ else .error .valueError
    | .error e => .error e
  | _ => .error .valueError

example : jsonEscape "a\"b" = "\"a\\\"b\"" := by decide
example : jsonUnescape "\"a\\\"b\"" = .ok "a\"b" := by decide

/-! ## `URLqueryargumentsafestring`: CPython `urllib.parse.quote_plus` /
`unquote_plus` -/

/-- The characters never quoted by `urllib.parse.quote` (`_ALWAYS_SAFE`):
ASCII letters, digits, and `_ . - ~`. -/
def alwaysSafeC (c : Char) : Bool :=
  c.isAlphanum || c = '_' || c = '.' || c = '-' || c = '~'

/-- Upper-case hexadecimal digit, as used by percent-encoding. -/
def hexDigitUp (n : Nat) : Char :=
  if n < 10 then Char.ofNat (48 + n) else Char.ofNat (55 + n)

/-- UTF-8 encoding of one character, as CPython encodes before quoting. -/
def utf8Bytes (c : Char) : List Nat :=
  let n := c.toNat
  if n < 0x80 then [n]
  else if n < 0x800 then [0xC0 + n / 0x40, 0x80 + n % 0x40]
  else if n < 0x10000 then
    [0xE0 + n / 0x1000, 0x80 + (n / 0x40) % 0x40, 0x80 + n % 0x40]
  else
    [0xF0 + n / 0x40000, 0x80 + (n / 0x1000) % 0x40, 0x80 + (n / 0x40) % 0x40, 0x80 + n % 0x40]

/-- `%XX` with upper-case hex digits. -/
def pctByte (b : Nat) : List Char := ['%', hexDigitUp (b / 16), hexDigitUp (b % 16)]

/-- Percent-encode a byte sequence. -/
def pctBytes : List Nat → List Char
  | [] => []
  | b :: r => pctByte b ++ pctBytes r

/-- CPython `urllib.parse.quote(string, safe)`: characters in `_ALWAYS_SAFE`
or in `safe` pass through, everything else is UTF-8 percent-encoded. -/
def pyQuoteL (safe : List Char) (l : List Char) : List Char :=
  escCat (fun c => if alwaysSafeC c || containsC safe c then [c] else pctBytes (utf8Bytes c)) l

/-- `URLqueryargumentsafestring.escape` = `urllib.parse.quote_plus`: when the
input has a space, quote with space marked safe and then turn spaces into
`+`; otherwise plain `quote` with the empty `safe` set it is called with. -/
def quotePlus (s : String) : String :=
  if containsC s.data ' ' then ⟨replace1 ' ' ['+'] (pyQuoteL [' '] s.data)⟩
  else ⟨pyQuoteL [] s.data⟩

/-- Maximal leading run of `%XX` groups (valid hex pairs), returned as byte
values together with the rest of the input; CPython `unquote` decodes such a
run as one UTF-8 byte string. -/
def grabPct : List Char → List Nat × List Char
  | '%' :: h1 :: h2 :: rest =>
    if isHexDigitC h1 && isHexDigitC h2 then
      let p := grabPct rest
      ((hexDigitValC h1 * 16 + hexDigitValC h2) :: p.1, p.2)
    else ([], '%' :: h1 :: h2 :: rest)
  | l => ([], l)

/-- UTF-8 decoding with `errors='replace'`: well-formed sequences decode to
their code point, a malformed lead or continuation yields one U+FFFD and
resumes after the offending lead byte.  (CPython's replacement granularity
can differ on multi-byte garbage; only well-formed runs arise here.)  Every
step consumes at least one byte, so any `fuel ≥ length of the input` gives
the full decoding. -/
def utf8DecFuel : Nat → List Nat → List Char
  | 0, _ => []
  | _ + 1, [] => []
  | f + 1, b :: rest =>
    if b < 0x80 then Char.ofNat b :: utf8DecFuel f rest
    else if 0xC2 ≤ b && b ≤ 0xDF then
      match rest with
      | b2 :: r2 =>
        if 0x80 ≤ b2 && b2 ≤ 0xBF then
          Char.ofNat ((b - 0xC0) * 0x40 + (b2 - 0x80)) :: utf8DecFuel f r2
        else '�' :: utf8DecFuel f rest
      | [] => ['�']
    else if 0xE0 ≤ b && b ≤ 0xEF then
      match rest with
      | b2 :: b3 :: r3 =>
        if (if b = 0xE0 then 0xA0 ≤ b2 && b2 ≤ 0xBF
            else if b = 0xED then 0x80 ≤ b2 && b2 ≤ 0x9F
            else 0x80 ≤ b2 && b2 ≤ 0xBF) && (0x80 ≤ b3 && b3 ≤ 0xBF) then
          Char.ofNat ((b - 0xE0) * 0x1000 + (b2 - 0x80) * 0x40 + (b3 - 0x80)) :: utf8DecFuel f r3
        else '�' :: utf8DecFuel f rest
      | _ => '�' :: utf8DecFuel f rest
    else if 0xF0 ≤ b && b ≤ 0xF4 then
      match rest with
      | b2 :: b3 :: b4 :: r4 =>
        if (if b = 0xF0 then 0x90 ≤ b2 && b2 ≤ 0xBF
            else if b = 0xF4 then 0x80 ≤ b2 && b2 ≤ 0x8F
            else 0x80 ≤ b2 && b2 ≤ 0xBF) &&
            (0x80 ≤ b3 && b3 ≤ 0xBF) && (0x80 ≤ b4 && b4 ≤ 0xBF) then
          Char.ofNat ((b - 0xF0) * 0x40000 + (b2 - 0x80) * 0x1000 + (b3 - 0x80) * 0x40 + (b4 - 0x80))
            :: utf8DecFuel f r4
        else '�' :: utf8DecFuel f rest
      | _ => '�' :: utf8DecFuel f rest
    else '�' :: utf8DecFuel f rest

/-- UTF-8 decoding of a full byte list (fuel instantiated at the length). -/
def utf8Dec (bs : List Nat) : List Char := utf8DecFuel bs.length bs

/-- CPython `urllib.parse.unquote` scan: maximal `%XX` runs decode as UTF-8,
everything else passes through.  Every step consumes at least one character,
so any `fuel ≥ length of the input` gives the real function. -/
def unquoteFuel : Nat → List Char → List Char
  | 0, l => l
  | _ + 1, [] => []
  | f + 1, c :: rest =>
    if c = '%' then
      match grabPct (c :: rest) with
      | ([], _) => c :: unquoteFuel f rest
      | (bs, r) => utf8Dec bs ++ unquoteFuel f r
    else c :: unquoteFuel f rest

/-- `URLqueryargumentsafestring.unescape` = `urllib.parse.unquote_plus`:
`+` becomes space, then percent-decoding. -/
def unquotePlus (s : String) : String :=
  ⟨unquoteFuel s.data.length (replace1 '+' [' '] s.data)⟩

example : quotePlus "a b/c" = "a+b%2Fc" := by decide
example : unquotePlus "a+b%2Fc" = "a b/c" := by decide

/-! ## `URLsafestring`: newline guard plus CPython
`urllib.parse.urlparse(data).geturl()` -/

/-- Python line boundaries, as recognized by `str.splitlines`: `\n`, `\r`
(with `\r\n` as one boundary), `\v`, `\f`, the separators `\x1c`–`\x1e`,
`\x85`, U+2028 and U+2029. -/
def isLineBoundary (c : Char) : Bool :=
  c = '\n' || c = '\r' || c = '\x0b' || c = '\x0c' || c = '\x1c' || c = '\x1d' ||
    c = '\x1e' || c = '\x85' || c = ' ' || c = ' '

/-- Python `str.splitlines()` as a line-at-a-time scan: each step takes the
maximal boundary-free prefix as the next line and skips one boundary (`\r\n`
as a pair); a trailing boundary contributes no empty final line.  Every step
past a non-empty input consumes at least one character, so any
`fuel ≥ length of the input` gives the real function. -/
def splitlinesFuel : Nat → List Char → List (List Char)
  | 0, _ => []
  | f + 1, l =>
    if l = [] then []
    else
      let line := l.takeWhile (fun c => !isLineBoundary c)
      match l.drop line.length with
      | [] => [line]
      | '\r' :: '\n' :: r2 => line :: splitlinesFuel f r2
      | _ :: r1 => line :: splitlinesFuel f r1

/-- Python `str.splitlines()`. -/
def splitlinesL (l : List Char) : List (List Char) := splitlinesFuel l.length l

/-- WHATWG C0-control-or-space class, stripped from the left of a URL by
CPython `urlsplit` (`_WHATWG_C0_CONTROL_OR_SPACE`). -/
def c0OrSpace (c : Char) : Bool := c.toNat ≤ 0x20

/-- Characters allowed in a URL scheme (`urllib.parse.scheme_chars`). -/
def schemeChar (c : Char) : Bool := c.isAlphanum || c = '+' || c = '-' || c = '.'

/-- ASCII lower-casing, as `str.lower()` applies to a scheme (scheme
characters are all ASCII). -/
def asciiLower (c : Char) : Char :=
  if 'A' ≤ c && c ≤ 'Z' then Char.ofNat (c.toNat + 32) else c

/-- Split at the first occurrence of `c`: the part before it and the part
after it (Python `str.split(c, 1)` when `c` is present). -/
def splitAtFirst (c : Char) (l : List Char) : List Char × List Char :=
  let pre := l.takeWhile (fun x => x ≠ c)
  (pre, l.drop (pre.length + 1))

/-- The result of `urlsplit`: scheme, netloc, path, query, fragment. -/
structure SplitRes where
  scheme : List Char
  netloc : List Char
  path : List Char
  query : List Char
  fragment : List Char

/-- CPython `urllib.parse.urlsplit(url)` with default arguments: left-strip
the WHATWG C0-control-or-space class, remove tab, carriage return and
newline, split off a scheme when a `:` is preceded by a valid non-empty
scheme starting with an ASCII letter, split a `//`-led netloc up to the first
of `/ ? #` (rejecting unbalanced IPv6 brackets with `ValueError`), then split
the fragment at the first `#` and the query at the first `?`.  CPython's
`_check_bracketed_host` and the non-ASCII `_checknetloc` validation concern
only inputs outside this development and are not modelled. -/
def urlsplitL (input : List Char) : Except PyErr SplitRes := do
  let url0 := input.dropWhile c0OrSpace
  let url1 := url0.filter (fun c => !(c = '\t' || c = '\r' || c = '\n'))
  let (scheme, url2) :=
    match idxOfC ':' url1 with
    | some i =>
      if 0 < i && (url1.headD ' ').isAlpha && (url1.take i).all schemeChar then
        ((url1.take i).map asciiLower, url1.drop (i + 1))
      else ([], url1)
    | none => ([], url1)
  let (netloc, url3) :=
    if url2.take 2 = ['/', '/'] then
      let nl := (url2.drop 2).takeWhile (fun c => !(c = '/' || c = '?' || c = '#'))
      (nl, (url2.drop 2).drop nl.length)
    else ([], url2)
  if (containsC netloc '[' && !containsC netloc ']') ||
      (containsC netloc ']' && !containsC netloc '[') then
    throw .valueError
  let (url4, fragment) :=
    if containsC url3 '#' then splitAtFirst '#' url3 else (url3, [])
  let (url5, query) :=
    if containsC url4 '?' then splitAtFirst '?' url4 else (url4, [])
  pure ⟨scheme, netloc, url5, query, fragment⟩

/-- Index of the last occurrence of `c` (Python `str.rfind` when present). -/
def lastIdxOfC (c : Char) (l : List Char) : Option Nat :=
  (idxOfC c l.reverse).map (fun j => l.length - 1 - j)

/-- CPython `urllib.parse._splitparams`: when the path has a `/`, look for
`;` only after the last `/` (no match leaves the path alone); otherwise split
at the first `;`. -/
def splitparamsL (url : List Char) : List Char × List Char :=
  if containsC url '/' then
    let start := (lastIdxOfC '/' url).getD 0
    match idxOfC ';' (url.drop start) with
    | some j => (url.take (start + j), url.drop (start + j + 1))
    | none => (url, [])
  else splitAtFirst ';' url

/-- CPython `urllib.parse.urlunsplit` on the five components, after
`urlunparse` has glued `;params` back onto the path. -/
def urlunsplitL (scheme netloc url query fragment : List Char) : List Char :=
  let url :=
    if netloc ≠ [] || (url ≠ [] && url.take 2 = ['/', '/']) then
      let url := if url ≠ [] && url.headD ' ' ≠ '/' then '/' :: url else url
      '/' :: '/' :: (netloc ++ url)
    else url
  let url := if scheme ≠ [] then scheme ++ ':' :: url else url
  let url := if query ≠ [] then url ++ '?' :: query else url
  if fragment ≠ [] then url ++ '#' :: fragment else url

/-- CPython `urllib.parse.urlparse(data).geturl()`: `urlsplit`, the params
split of `urlparse`, and `urlunparse` of the six components. -/
def urlparseGeturlL (l : List Char) : Except PyErr (List Char) := do
  let r ← urlsplitL l
  let (path, params) := if containsC r.path ';' then splitparamsL r.path else (r.path, [])
  let url := if params ≠ [] then path ++ ';' :: params else path
  pure (urlunsplitL r.scheme r.netloc url r.query r.fragment)

/-- `urlparse(data).geturl()` on a `String`. -/
def urlparseGeturl (s : String) : Except PyErr String :=
  (urlparseGeturlL s.data).map (fun l => ⟨l⟩)

/-- `URLsafestring.escape`: when the data contains `\n` or `\r`, keep only
`data.splitlines()[0]` (an `IndexError` on an empty split cannot fire, since
the guard guarantees at least one boundary in a non-empty string), then
reassemble through `urlparse(data).geturl()`. -/
def urlEscape (data : String) : Except PyErr String := do
  let l := data.data
  if containsC l '\n' || containsC l '\r' then
    match splitlinesL l with
    | [] => throw .indexError
    | first :: _ => (urlparseGeturlL first).map (fun r => ⟨r⟩)
  else (urlparseGeturlL l).map (fun r => ⟨r⟩)

/-- `URLsafestring.unescape`: declared identity in the source ("can not
unremove non url elements"). -/
def urlUnescape (s : String) : Except PyErr String := .ok s

example : urlEscape "http://host/path\nInjected-Header: x" = .ok "http://host/path" := by decide
example : urlparseGeturl "http://host?" = .ok "http://host" := by decide

/-! ## `EmailAddresssafestring`: first match of the address pattern

`escape` runs `re.search` with the verbose pattern
`[a-zA-Z0-9._%+-]+ @ ([a-zA-Z0-9.-]+) (\.[a-zA-Z]{2,4})` and returns
`.group()`; when there is no match, `search` returns `None` and the
`.group()` attribute access raises `AttributeError`. -/

/-- The username character class `[a-zA-Z0-9._%+-]`. -/
def isUserChar (c : Char) : Bool :=
  c.isAlphanum || c = '.' || c = '_' || c = '%' || c = '+' || c = '-'

/-- The domain character class `[a-zA-Z0-9.-]`. -/
def isDomChar (c : Char) : Bool := c.isAlphanum || c = '.' || c = '-'

/-- Attempt the dot-something tail `(\.[a-zA-Z]{2,4})` at offset `g` of the
maximal domain run `d` (every tail character is also a domain character, so
the tail always lies inside the run): a literal dot, then greedily up to four
but at least two ASCII letters. -/
def tailTry (d : List Char) (g : Nat) : Option (List Char) :=
  match d.drop g with
  | '.' :: after =>
    let j := min 4 (after.takeWhile Char.isAlpha).length
    if 2 ≤ j then some (d.take g ++ '.' :: after.take j) else none
  | _ => none

/-- Backtracking of the greedy domain group `([a-zA-Z0-9.-]+)`: try the
longest group first (`g` characters of the run), shrinking down to one. -/
def domTry : Nat → List Char → Option (List Char)
  | 0, _ => none
  | g + 1, d =>
    match tailTry d (g + 1) with
    | some m => some m
    | none => domTry g d

/-- Attempt a whole-pattern match anchored at the current position: a
non-empty username run, a literal `@`, then the domain group and tail. -/
def emailAtPos (l : List Char) : Option (List Char) :=
  let u := l.takeWhile isUserChar
  if u = [] then none
  else
    match l.drop u.length with
    | '@' :: rest =>
      let d := rest.takeWhile isDomChar
      (domTry d.length d).map (fun m => u ++ '@' :: m)
    | _ => none

/-- `re.search`: try every start position left to right. -/
def emailSearch : List Char → Option (List Char)
  | [] => none
  | c :: rest =>
    match emailAtPos (c :: rest) with
    | some m => some m
    | none => emailSearch rest

/-- `EmailAddresssafestring.escape`: the first matching address, or the
`AttributeError` from calling `.group()` on `None`. -/
def emailEscape (s : String) : Except PyErr String :=
  match emailSearch s.data with
  | some m => .ok ⟨m⟩
  | none => .error .attributeError

/-- `EmailAddresssafestring.unescape`: declared identity in the source. -/
def emailUnescape (s : String) : Except PyErr String := .ok s

example : emailEscape "ignore To: evil@x.com rest" = .ok "evil@x.com" := by decide
example : emailEscape "not an address" = .error .attributeError := by decide

/-! ## `MYSQLsafestring`: the parameterized-text substitution

`MYSQLsafestring.escape(self, sql, values)` requires `values` to be a tuple
(modelled as a list of strings, so the `isinstance` gate never fires),
splits the template on whitespace, records for every whitespace token that
contains `%s` the token index and the position of the *first* `%s` inside
it, raises `ValueError` when the number of recorded tokens differs from the
number of values, rewrites each value through six `str.replace` calls, and
splices value `i` into marker token `i`: the token is replaced by a
single-quoted string made of the token text before the marker followed by
the rewritten value (the marker itself and any token text after it are
dropped).  The tokens are re-joined with single spaces. -/

/-- Python `str.split()` whitespace (the ASCII rows; the module's inputs are
ASCII, so the Unicode space rows of CPython are not reachable). -/
def isPySpace (c : Char) : Bool :=
  c = ' ' || c = '\t' || c = '\n' || c = '\r' || c = '\x0b' || c = '\x0c'

/-- Python `str.split()` with no argument: split on whitespace runs,
discarding empty fields. -/
def splitWS : List Char → List (List Char)
  | [] => []
  | c :: rest =>
    if isPySpace c then splitWS rest
    else
      match splitWS2 rest with
      | (w, more) => (c :: w) :: more
where
  /-- Continue the current word until whitespace, then hand back to `splitWS`. -/
  splitWS2 : List Char → List Char × List (List Char)
    | [] => ([], [])
    | c :: rest =>
      if isPySpace c then ([], splitWS rest)
      else
        match splitWS2 rest with
        | (w, more) => (c :: w, more)

/-- The placeholder scan of `MYSQLsafestring.escape`: for every whitespace
token containing `%s`, the token index paired with `token.index('%s')`. -/
def markerTokens (sql : String) : List (Nat × Nat) :=
  ((splitWS sql.data).enum.filterMap
    (fun p => (idxOfSub ['%', 's'] p.2).map (fun j => (p.1, j))))

/-- The per-value rewriting loop of `MYSQLsafestring.escape`, with the six
`str.replace` calls in source order.  In the Python source the first call is
`item.replace('"', '\"')` — the literal `'\"'` is just the double-quote
character, so the call is an identity; the second is `item.replace("/",
'\/')` — the literal `'\/'` is backslash-slash; the third is
`item.replace("\"", "\\")`, turning each double quote into a lone
backslash.  The apostrophe is never touched. -/
def mysqlValueRewrite (l : List Char) : List Char :=
  replace1 '\t' []
    (replace1 '\r' []
      (replace1 '\n' []
        (replace1 '"' ['\\']
          (replace1 '/' ['\\', '/']
            (replace1 '"' ['"'] l)))))

/-- The splice loop of `MYSQLsafestring.escape`: marker tokens consume the
rewritten values in order; `sql[index][0:index_of_placeholder]` followed by
the value, wrapped in single quotes.  The branch pairing a marker token with
an exhausted value list is unreachable once the count check has passed. -/
def spliceToks : List (List Char) → List (List Char) → List (List Char)
  | [], _ => []
  | t :: ts, vs =>
    match idxOfSub ['%', 's'] t, vs with
    | some p, v :: vs2 => (aposC :: (t.take p ++ v) ++ [aposC]) :: spliceToks ts vs2
    | some _, [] => t :: spliceToks ts []
    | none, _ => t :: spliceToks ts vs

/-- `MYSQLsafestring.escape(cls, sql, values)`. -/
def mysqlEscape (sql : String) (values : List String) : Except PyErr String :=
  if values.length ≠ (markerTokens sql).length then .error .valueError
  else
    .ok ⟨List.intercalate [' ']
      (spliceToks (splitWS sql.data) (values.map (fun v => mysqlValueRewrite v.data)))⟩

example : mysqlEscape "a %s" ["x"] = .ok "a 'x'" := by decide
example : mysqlEscape "a %s" [] = .error .valueError := by decide

/-! ## The `Basesafestring` contract

The abstract operations, with per-class dispatch made explicit.  A call on
the `mysql` class through the unary `escape(data)` signature used by
`__upgrade__` and the inherited `__new__` raises `TypeError` (its `escape`
takes two positional data arguments); `MYSQLsafestring` inherits the raising
`unescape` of the base class. -/

/-- Unary `cls.escape(data)` of each class, as called by `__upgrade__` and
by `Basesafestring.__new__`. -/
def escapeFn : Cls → String → Except PyErr String
  | .base, _ => .error .notImplementedError
  | .html, d => .ok (htmlEscape d)
  | .json, d => .ok (jsonEscape d)
  | .urlquery, d => .ok (quotePlus d)
  | .url, d => urlEscape d
  | .email, d => emailEscape d
  | .mysql, _ => .error .typeError

/-- `cls.unescape(data)` of each class. -/
def unescapeFn : Cls → String → Except PyErr String
  | .base, _ => .error .notImplementedError
  | .html, d => .ok (htmlUnescape d)
  | .json, d => jsonUnescape d
  | .urlquery, d => .ok (unquotePlus d)
  | .url, d => urlUnescape d
  | .email, d => emailUnescape d
  | .mysql, _ => .error .notImplementedError

/-- `Basesafestring.__upgrade__(self, other)`: same class — the content is
used unchanged; another `Basesafestring` class — `other.unescape(other)`
then `self.escape` of the recovered data; anything else — `self.escape`
of `str(other)`. -/
def upgrade (cls : Cls) (other : PyVal) : Except PyErr String :=
  match other with
  | .safe d content =>
    if d = cls then .ok content
    else do
      let raw ← unescapeFn d content
      escapeFn cls raw
  | .plain s => escapeFn cls s

/-- `self.__class__(data)` with one data argument, as `__add__` performs it:
every class with the inherited `__new__` wraps the data verbatim (no
keyword arguments are passed); `MYSQLsafestring.__new__` requires a second
positional `values` argument, so the call raises `TypeError`. -/
def construct1 (cls : Cls) (data : String) : Except PyErr PyVal :=
  match cls with
  | .mysql => .error .typeError
  | c => .ok (.safe c data)

/-- `Basesafestring.__add__(self, other)`: join `self` with the upgraded
other, then rebuild through `self.__class__`. -/
def combine (cls : Cls) (content : String) (other : PyVal) : Except PyErr PyVal := do
  let u ← upgrade cls other
  construct1 cls (content ++ u)

/-- `Basesafestring.__new__(cls, data, **kwargs)` for the classes with the
inherited constructor: when the `unsafe` keyword is *present* (`'unsafe' in
kwargs` — its value is never read), the stored content is
`cls.escape(cls, str(data))`; otherwise `data` is wrapped verbatim.
`some b` models passing `unsafe=b`, `none` models not passing it.
Calling `MYSQLsafestring` with this one-data-argument shape raises
`TypeError` (its own `__new__` requires `values`). -/
def constructK (cls : Cls) (data : String) (kw : Option Bool) : Except PyErr PyVal :=
  match cls with
  | .mysql => .error .typeError
  | c =>
    if kw.isSome then do
      let e ← escapeFn c data
      pure (.safe c e)
    else .ok (.safe c data)

/-- `str(v)` / `__str__`: raises `NotImplementedError` exactly when the
instance's class is `Basesafestring` itself. -/
def pyStr (v : PyVal) : Except PyErr String :=
  match v with
  | .safe .base _ => .error .notImplementedError
  | .safe _ c => .ok c
  | .plain s => .ok s

/-- The opening brace character, by code point. -/
def lbr : Char := Char.ofNat 123

/-- The closing brace character, by code point. -/
def rbr : Char := Char.ofNat 125

/-- Keyword-argument lookup for a replacement field. -/
def lookupKw (nm : List Char) : List (List Char × List Char) → Option (List Char)
  | [] => none
  | p :: rest => if p.1 = nm then some p.2 else lookupKw nm rest

/-- `str.format` on the subset of the replacement-field grammar used in this
development: literal text, doubled braces, auto-numbered positional fields
(empty field name) and keyword fields (non-empty field name looked up among
the keyword arguments, `KeyError` when absent; manually numbered fields and
conversion/format specs are outside the modelled subset).  A positional
field with no positional argument left raises `IndexError`; an unmatched
brace raises `ValueError`.  Every step consumes at least one character, so
any `fuel ≥ length of the template` gives the real function. -/
def fmtFuel : Nat → List Char → List (List Char) → List (List Char × List Char) →
    Except PyErr (List Char)
  | 0, l, _, _ => .ok l
  | _ + 1, [], _, _ => .ok []
  | f + 1, c :: rest, args, kwargs =>
    if c = lbr then
      match rest with
      | [] => .error .valueError
      | d :: rest2 =>
        if d = lbr then (fmtFuel f rest2 args kwargs).map (fun t => lbr :: t)
        else
          let nm := (d :: rest2).takeWhile (fun x => x ≠ rbr)
          match (d :: rest2).drop nm.length with
          | x :: rest3 =>
            if x = rbr then
              if nm = [] then
                match args with
                | [] => .error .indexError
                | a :: args2 => (fmtFuel f rest3 args2 kwargs).map (fun t => a ++ t)
              else
                match lookupKw nm kwargs with
                | some v => (fmtFuel f rest3 args kwargs).map (fun t => v ++ t)
                | none => .error .keyError
            else .error .valueError
          | [] => .error .valueError
    else if c = rbr then
      match rest with
      | [] => .error .valueError
      | d :: rest2 =>
        if d = rbr then (fmtFuel f rest2 args kwargs).map (fun t => rbr :: t)
        else .error .valueError
    else (fmtFuel f rest args kwargs).map (fun t => c :: t)

/-- The keyword half of `Basesafestring.format`: each named argument is
upgraded, keeping its name. -/
def upgradeKw (cls : Cls) (p : String × PyVal) : Except PyErr (String × String) := do
  let u ← upgrade cls p.2
  pure (p.1, u)

/-- `Basesafestring.format(self, *args, **kwargs)`: every positional and
named argument is upgraded through `__upgrade__`, then `str.format`
substitutes them into `self`'s content.  `str.format` returns a plain `str`
(never an instance of the calling subclass), so the result is untagged. -/
def pyFormat (cls : Cls) (tpl : String) (args : List PyVal)
    (kwargs : List (String × PyVal)) : Except PyErr PyVal := do
  let uargs ← args.mapM (upgrade cls)
  let ukw ← kwargs.mapM (upgradeKw cls)
  let s ← fmtFuel tpl.data.length tpl.data (uargs.map String.data)
    (ukw.map (fun p => (p.1.data, p.2.data)))
  pure (.plain ⟨s⟩)

example : combine .html "&lt;b&gt;" (.plain "&") = .ok (.safe .html "&lt;b&gt;&amp;") := by decide
example : constructK .html "<b>" (some true) = .ok (.safe .html "&lt;b&gt;") := by decide
example : pyFormat .html "a\x7b\x7db" [.plain "<"] [] = .ok (.plain "a&lt;b") := by decide

/-! ## Definitions following the spec's words

Two auxiliary definitions written from the specification text rather than
from the source, for the refinement comparisons of claims C4 and C8. -/

/-- Spec-side marker count for C4: "the number of placeholder markers
(occurrences of the %s marker) in the template" — non-overlapping
left-to-right occurrences, as Python `str.count('%s')`. -/
def specMarkerCount : List Char → Nat
  | '%' :: 's' :: rest => specMarkerCount rest + 1
  | _ :: rest => specMarkerCount rest
  | [] => 0

/-- Spec-side truncation for C8: "the content of the input up to the first
line break (everything from the first line break onward is discarded)",
reading "line break" as a newline or carriage return — the characters the
spec's injection scenario is about. -/
def specTruncate (s : String) : String :=
  ⟨s.data.takeWhile (fun c => !(c = '\n' || c = '\r'))⟩

/-! ## Concrete inputs used by the claim checks -/

/-- The value with an embedded single quote from the specification's
parameterized-text example. -/
def oBrien : String := ⟨['O', aposC, 'B', 'r', 'i', 'e', 'n']⟩

/-- The specification's parameterized-text example template. -/
def c3Query : String := "SELECT * FROM t WHERE name = %s AND id = %s"

/-- What `MYSQLsafestring.escape` produces on the example: both values are
spliced in single-quote delimiters, and the apostrophe inside the first
value is still there, raw, between them. -/
def c3Expected : String :=
  ⟨"SELECT * FROM t WHERE name = ".data ++ aposC :: oBrien.data ++ aposC ::
    " AND id = ".data ++ aposC :: '5' :: [aposC]⟩

/-- Whether an operation result is a tagged safety variant (as opposed to a
plain untagged string or an exception). -/
def isTagged : Except PyErr PyVal → Bool
  | .ok (.safe _ _) => true
  | _ => false

/-! ## Shared lemmas -/

/-- `__add__` is the upgrade followed by the one-argument reconstruction. -/
theorem combine_eq (cls : Cls) (content : String) (other : PyVal) :
    combine cls content other =
      (upgrade cls other).bind (fun u => construct1 cls (content ++ u)) := rfl

/-! ## Claim theorems -/

/-- C1: for a target context C, the Upgrade Resolver (`__upgrade__`) keeps
the content of a same-context value unchanged, sends a value of a different
context D through D's `unescape` followed by C's `escape`, and sends untyped
plain data through C's `escape` of its string form. -/
theorem C1_upgrade_resolver (C : Cls) (content : String) (D : Cls) (s : String) :
    upgrade C (.safe C content) = .ok content ∧
    (D ≠ C → upgrade C (.safe D content) = (unescapeFn D content).bind (escapeFn C)) ∧
    upgrade C (.plain s) = escapeFn C s := by
  refine ⟨by simp [upgrade], fun h => ?_, rfl⟩
  simp [upgrade, h]
  rfl

theorem C1_upgrade_resolver_witness :
    upgrade .html (.safe .html "a") = .ok "a" ∧
    upgrade .html (.safe .json "a") = (unescapeFn .json "a").bind (escapeFn .html) ∧
    upgrade .html (.plain "&") = escapeFn .html "&" := by
  obtain ⟨h1, h2, h3⟩ := C1_upgrade_resolver .html "a" .json "&"
  exact ⟨h1, h2 (by decide), h3⟩

/-- C2: whenever `combine` (the `+` operator) returns a value, that value is
a variant of the left operand's context whose content is the left content
followed by the upgraded content of the right operand; and the Markup
variant built unsafely from raw `<b>` combined with raw `&` has content
`&lt;b&gt;` followed by `&amp;`. -/
theorem C2_combine_appends :
    (∀ (cls : Cls) (content : String) (other : PyVal) (r : PyVal),
        combine cls content other = .ok r →
        ∃ u, upgrade cls other = .ok u ∧ r = .safe cls (content ++ u)) ∧
    constructK .html "<b>" (some true) = .ok (.safe .html "&lt;b&gt;") ∧
    combine .html "&lt;b&gt;" (.plain "&") = .ok (.safe .html ("&lt;b&gt;" ++ "&amp;")) := by
  refine ⟨?_, by decide, by decide⟩
  intro cls content other r h
  rw [combine_eq] at h
  cases hu : upgrade cls other with
  | error e => rw [hu] at h; simp [Except.bind] at h
  | ok u =>
    rw [hu] at h
    refine ⟨u, rfl, ?_⟩
    cases cls <;> simp [Except.bind, construct1] at h <;> exact h.symm

theorem C2_combine_appends_witness :
    ∃ u, upgrade .html (.plain "&") = .ok u ∧
      (PyVal.safe .html "&lt;b&gt;&amp;") = .safe .html ("&lt;b&gt;" ++ u) :=
  C2_combine_appends.1 .html "&lt;b&gt;" (.plain "&") (.safe .html "&lt;b&gt;&amp;") (by decide)

/-- C3: on the specification's example — template
`SELECT * FROM t WHERE name = %s AND id = %s` with values `O'Brien` and `5`
— the parameterized-text escaper leaves the apostrophe in `O'Brien`
untouched (its rewriting loop only handles double quote, slash and the
three control characters), so the output embeds a raw quote character
inside the single-quote delimiters it wraps values in. -/
theorem C3_mysql_quote_not_neutralized :
    mysqlEscape c3Query [oBrien, "5"] = .ok c3Expected ∧
    mysqlValueRewrite oBrien.data = oBrien.data ∧
    containsC c3Expected.data aposC = true := by decide

/-- C4, counterexample: the claim reads the marker count as the number of
occurrences of `%s`.  On template `%s%s` with one value the code succeeds
(the scan records whitespace tokens containing `%s`, and there is one such
token), although the occurrence count is 2 ≠ 1, so the claimed equivalence
fails at this input. -/
theorem C4_marker_count_counterexample :
    ¬ ((mysqlEscape "%s%s" ["a"] = .error .valueError) ↔
        specMarkerCount "%s%s".data ≠ (["a"] : List String).length) := by decide

/-- C4, amended: the escaper raises the count-mismatch `ValueError` if and
only if the number of supplied values differs from the number of
whitespace-separated template tokens that contain at least one `%s`. -/
theorem C4_mismatch_iff_token_count (sql : String) (values : List String) :
    mysqlEscape sql values = .error .valueError ↔
      values.length ≠ (markerTokens sql).length := by
  unfold mysqlEscape
  split <;> simp_all

/-- C5, counterexample: constructing with `unsafe=False` does not wrap the
data verbatim — the constructor only tests `'unsafe' in kwargs`, so a false
flag still escapes. -/
theorem C5_false_flag_counterexample :
    constructK .html "<" (some false) = .ok (.safe .html "&lt;") ∧
    constructK .html "<" (some false) ≠ .ok (.safe .html "<") := by decide

/-- C5, amended: for every class with the inherited one-data-argument
constructor (all but the parameterized-text class, whose own `__new__`
requires a second argument), construction applies `escape` exactly when the
`unsafe` keyword is passed — with either boolean value — and wraps the data
verbatim when it is absent. -/
theorem C5_escape_iff_keyword_present (cls : Cls) (h : cls ≠ .mysql)
    (data : String) (b : Bool) :
    constructK cls data (some b) = (escapeFn cls data).map (fun e => PyVal.safe cls e) ∧
    constructK cls data none = .ok (.safe cls data) := by
  cases cls <;> first
    | exact absurd rfl h
    | exact ⟨by cases hE : escapeFn _ data <;>
        simp [constructK, hE, Except.map, Except.bind], rfl⟩

theorem C5_escape_iff_keyword_present_witness :
    constructK .html "<" (some false) =
      (escapeFn .html "<").map (fun e => PyVal.safe .html e) ∧
    constructK .html "<" none = .ok (.safe .html "<") :=
  C5_escape_iff_keyword_present .html (by decide) "<" false

/-- C6, counterexample: `format` substitutes the upgraded arguments but
returns what `str.format` returns — a plain untagged string, not a variant
of the receiver's context. -/
theorem C6_format_returns_plain :
    pyFormat .html "a\x7b\x7db" [.plain "<"] [] = .ok (.plain "a&lt;b") ∧
    isTagged (pyFormat .html "a\x7b\x7db" [.plain "<"] []) = false := by decide

/-- C6, amended: whenever `format` returns a value, every positional and
named argument was upgraded through the Upgrade Resolver beforehand, and the
returned value is a plain untagged string (the receiver's safety tag is not
carried over). -/
theorem C6_format_upgrades_untagged (cls : Cls) (tpl : String) (args : List PyVal)
    (kwargs : List (String × PyVal)) (r : PyVal)
    (h : pyFormat cls tpl args kwargs = .ok r) :
    (∃ s : String, r = .plain s) ∧
    (∃ uargs, args.mapM (upgrade cls) = .ok uargs) ∧
    (∃ ukw, kwargs.mapM (upgradeKw cls) = .ok ukw) := by
  have hfe : pyFormat cls tpl args kwargs =
      (args.mapM (upgrade cls)).bind (fun uargs =>
        (kwargs.mapM (upgradeKw cls)).bind (fun ukw =>
          (fmtFuel tpl.data.length tpl.data (uargs.map String.data)
            (ukw.map (fun p => (p.1.data, p.2.data)))).map
              (fun s => PyVal.plain ⟨s⟩))) := rfl
  rw [hfe] at h
  cases h1 : args.mapM (upgrade cls) with
  | error e => rw [h1] at h; simp [Except.bind] at h
  | ok uargs =>
    rw [h1] at h
    simp only [Except.bind] at h
    cases h2 : kwargs.mapM (upgradeKw cls) with
    | error e => rw [h2] at h; simp [Except.bind] at h
    | ok ukw =>
      rw [h2] at h
      simp only [Except.bind] at h
      cases h3 : fmtFuel tpl.data.length tpl.data (uargs.map String.data)
          (ukw.map (fun p => (p.1.data, p.2.data))) with
      | error e => rw [h3] at h; simp [Except.map] at h
      | ok s =>
        rw [h3] at h
        simp [Except.map] at h
        exact ⟨⟨⟨s⟩, h.symm⟩, ⟨uargs, rfl⟩, ⟨ukw, rfl⟩⟩

theorem C6_format_upgrades_untagged_witness :
    (∃ s : String, (PyVal.plain "a&lt;b") = .plain s) ∧
    (∃ uargs, ([PyVal.plain "<"]).mapM (upgrade .html) = .ok uargs) ∧
    (∃ ukw, ([] : List (String × PyVal)).mapM (upgradeKw .html) = .ok ukw) :=
  C6_format_upgrades_untagged .html "a\x7b\x7db" [.plain "<"] [] (.plain "a&lt;b") (by decide)

/-- C9, counterexample: not every operation on the abstract base fails —
constructing `Basesafestring` without the `unsafe` keyword succeeds and
stores the data verbatim, and combining two base-class values succeeds
(the same-class branch of the resolver calls no `escape`/`unescape`). -/
theorem C9_base_construct_succeeds :
    constructK .base "hello" none = .ok (.safe .base "hello") ∧
    combine .base "a" (.safe .base "b") = .ok (.safe .base "ab") := by decide

/-- C9, amended: on the abstract base class, `escape`, `unescape` and string
conversion raise `NotImplementedError`, as do construction with the `unsafe`
keyword, combination with a plain operand and `format` with a plain argument
(each of which routes through the base `escape`); but bare construction
without the keyword and combination with another base-class value succeed. -/
theorem C9_base_operations (d t s : String) (b : Bool) :
    escapeFn .base d = .error .notImplementedError ∧
    unescapeFn .base d = .error .notImplementedError ∧
    pyStr (.safe .base d) = .error .notImplementedError ∧
    constructK .base d (some b) = .error .notImplementedError ∧
    combine .base d (.plain s) = .error .notImplementedError ∧
    pyFormat .base t [.plain s] [] = .error .notImplementedError ∧
    constructK .base d none = .ok (.safe .base d) ∧
    combine .base d (.safe .base s) = .ok (.safe .base (d ++ s)) :=
  ⟨rfl, rfl, rfl, rfl, rfl, rfl, rfl, rfl⟩

/-- C10: combining a concrete non-parameterized variant with a
`MYSQLsafestring` value raises `NotImplementedError`: the resolver takes the
different-class branch and calls the operand's `unescape`, which
`MYSQLsafestring` inherits from the raising base-class stub. -/
theorem C10_mysql_operand_raises (cls : Cls) (h1 : cls ≠ .mysql) (_h2 : cls ≠ .base)
    (c m : String) :
    combine cls c (.safe .mysql m) = .error .notImplementedError := by
  have hu : upgrade cls (.safe .mysql m) = .error .notImplementedError := by
    simp only [upgrade]
    rw [if_neg (fun he => h1 he.symm)]
    rfl
  rw [combine_eq, hu]
  rfl

theorem C10_mysql_operand_raises_witness :
    combine .html "x" (.safe .mysql "a %s") = .error .notImplementedError :=
  C10_mysql_operand_raises .html (by decide) (by decide) "x" "a %s"

/-! ## The markup round trip (C7) -/

/-- `replace1` distributes over concatenation. -/
theorem replace1_append (c : Char) (r a b : List Char) :
    replace1 c r (a ++ b) = replace1 c r a ++ replace1 c r b := by
  induction a with
  | nil => rfl
  | cons x xs ih => simp [replace1, ih]

/-- `html.escape` distributes over concatenation. -/
theorem htmlEscapeL_append (a b : List Char) :
    htmlEscapeL (a ++ b) = htmlEscapeL a ++ htmlEscapeL b := by
  simp [htmlEscapeL, replace1_append]

/-- On one character, the five sequential replaces of `html.escape` agree
with the per-character table `escChar`. -/
theorem htmlEscapeL_single (c : Char) : htmlEscapeL [c] = escChar c := by
  by_cases h1 : c = '&'
  · subst h1; rfl
  by_cases h2 : c = '<'
  · subst h2; rfl
  by_cases h3 : c = '>'
  · subst h3; rfl
  by_cases h4 : c = '"'
  · subst h4; rfl
  by_cases h5 : c = aposC
  · subst h5; rfl
  simp [htmlEscapeL, replace1, escChar, h1, h2, h3, h4, h5]

/-- `html.escape` peels one character at a time. -/
theorem htmlEscapeL_cons (c : Char) (l : List Char) :
    htmlEscapeL (c :: l) = escChar c ++ htmlEscapeL l := by
  have h : c :: l = [c] ++ l := rfl
  rw [h, htmlEscapeL_append, htmlEscapeL_single]

/-- The unescape scan undoes `html.escape`, character by character: every
ampersand in an escape output starts one of the five complete references,
each of which the reference matcher consumes exactly and decodes back. -/
theorem unesc_html (l : List Char) :
    ∀ f : Nat, (htmlEscapeL l).length ≤ f → unescFuel f (htmlEscapeL l) = l := by
  induction l with
  | nil =>
    intro f _
    cases f <;> simp [htmlEscapeL, replace1, unescFuel]
  | cons c l ih =>
    intro f hf
    rw [htmlEscapeL_cons] at hf ⊢
    by_cases h1 : c = '&'
    · subst h1
      have hlen : (escChar '&' ++ htmlEscapeL l).length = (htmlEscapeL l).length + 5 := by
        simp [escChar]
      cases f with
      | zero => exfalso; omega
      | succ f2 =>
        have hx : unescFuel (f2 + 1) (escChar '&' ++ htmlEscapeL l)
            = '&' :: unescFuel f2 (htmlEscapeL l) := rfl
        rw [hx, ih f2 (by omega)]
    by_cases h2 : c = '<'
    · subst h2
      have hlen : (escChar '<' ++ htmlEscapeL l).length = (htmlEscapeL l).length + 4 := by
        simp [escChar]
      cases f with
      | zero => exfalso; omega
      | succ f2 =>
        have hx : unescFuel (f2 + 1) (escChar '<' ++ htmlEscapeL l)
            = '<' :: unescFuel f2 (htmlEscapeL l) := rfl
        rw [hx, ih f2 (by omega)]
    by_cases h3 : c = '>'
    · subst h3
      have hlen : (escChar '>' ++ htmlEscapeL l).length = (htmlEscapeL l).length + 4 := by
        simp [escChar]
      cases f with
      | zero => exfalso; omega
      | succ f2 =>
        have hx : unescFuel (f2 + 1) (escChar '>' ++ htmlEscapeL l)
            = '>' :: unescFuel f2 (htmlEscapeL l) := rfl
        rw [hx, ih f2 (by omega)]
    by_cases h4 : c = '"'
    · subst h4
      have hlen : (escChar '"' ++ htmlEscapeL l).length = (htmlEscapeL l).length + 6 := by
        simp [escChar]
      cases f with
      | zero => exfalso; omega
      | succ f2 =>
        have hx : unescFuel (f2 + 1) (escChar '"' ++ htmlEscapeL l)
            = '"' :: unescFuel f2 (htmlEscapeL l) := rfl
        rw [hx, ih f2 (by omega)]
    by_cases h5 : c = aposC
    · subst h5
      have he6 : escChar aposC = ['&', '#', 'x', '2', '7', ';'] := by decide
      have hlen : (escChar aposC ++ htmlEscapeL l).length = (htmlEscapeL l).length + 6 := by
        rw [he6]; simp
      cases f with
      | zero => exfalso; omega
      | succ f2 =>
        have hx : unescFuel (f2 + 1) (escChar aposC ++ htmlEscapeL l)
            = aposC :: unescFuel f2 (htmlEscapeL l) := rfl
        rw [hx, ih f2 (by omega)]
    have he : escChar c = [c] := by simp [escChar, h1, h2, h3, h4, h5]
    rw [he] at hf ⊢
    have hlen : (([c] : List Char) ++ htmlEscapeL l).length = (htmlEscapeL l).length + 1 := by
      simp
    cases f with
    | zero => exfalso; omega
    | succ f2 =>
      have hx : unescFuel (f2 + 1) (([c] : List Char) ++ htmlEscapeL l)
          = if c = '&' then
              match matchRef (htmlEscapeL l) with
              | some (out, rem) => out ++ unescFuel f2 rem
              | none => '&' :: unescFuel f2 (htmlEscapeL l)
            else c :: unescFuel f2 (htmlEscapeL l) := rfl
      rw [hx, if_neg h1, ih f2 (by omega)]

/-- C7: the markup round-trip law — for every string, `html.unescape`
applied to `html.escape` of it gives the string back.  (`escape` maps the
five reserved characters to complete references with terminating
semicolons, and the decoder recognizes exactly those references.) -/
theorem C7_html_roundtrip : ∀ s : String, htmlUnescape (htmlEscape s) = s := by
  intro s
  cases s with
  | mk l =>
    show String.mk (unescFuel (htmlEscapeL l).length (htmlEscapeL l)) = String.mk l
    rw [unesc_html l _ le_rfl]

/-! ## URL truncation (C8) -/

/-- The first element of a non-empty `splitlines` is the maximal prefix free
of line-boundary characters. -/
theorem splitlines_head (l : List Char) (h : l ≠ []) :
    ∃ ts, splitlinesL l = (l.takeWhile (fun c => !isLineBoundary c)) :: ts := by
  have h1 : l.length = (l.length - 1) + 1 := by
    cases l with
    | nil => exact absurd rfl h
    | cons a as => simp
  unfold splitlinesL
  rw [h1]
  simp only [splitlinesFuel]
  rw [if_neg h]
  split
  · exact ⟨[], rfl⟩
  · exact ⟨_, rfl⟩
  · exact ⟨_, rfl⟩

/-- C8, counterexample: on `a`, vertical tab, `b`, newline, `c` the code
returns just `a` — the guard sees the newline and `splitlines` then cuts at
the *vertical tab*, a line boundary for Python but not a line break in the
claim's sense — while the claim promises the normalization of everything up
to the first line break, `a`, vertical tab, `b`. -/
theorem C8_vertical_tab_counterexample :
    urlEscape "a\x0Bb\nc" = .ok "a" ∧
    urlparseGeturl (specTruncate "a\x0Bb\nc") = .ok "a\x0Bb" ∧
    urlEscape "a\x0Bb\nc" ≠ urlparseGeturl (specTruncate "a\x0Bb\nc") := by decide

/-- C8, amended: `URLsafestring.escape` truncates only when the input
contains a newline or carriage return, and then keeps
`data.splitlines()[0]` — the prefix before the first of *Python's* line
boundaries, which also include vertical tab, form feed, the file/group/record
separators, `\x85`, U+2028 and U+2029; without a newline or carriage return
no truncation happens even if such characters are present.  The kept prefix
is then reassembled by `urlparse(data).geturl()`, and the specification's
header-injection example holds. -/
theorem C8_truncation_amended (s : String) :
    ((containsC s.data '\n' || containsC s.data '\r') = true →
      urlEscape s = urlparseGeturl ⟨s.data.takeWhile (fun c => !isLineBoundary c)⟩) ∧
    ((containsC s.data '\n' || containsC s.data '\r') = false →
      urlEscape s = urlparseGeturl s) ∧
    urlEscape "http://host/path\nInjected-Header: x" = .ok "http://host/path" := by
  refine ⟨?_, ?_, by decide⟩
  · intro h
    have hl : s.data ≠ [] := by
      intro he
      rw [he] at h
      simp [containsC] at h
    obtain ⟨ts, hts⟩ := splitlines_head s.data hl
    simp only [urlEscape, urlparseGeturl, h, if_true, hts]
  · intro h
    simp [urlEscape, urlparseGeturl, h]

theorem C8_truncation_amended_witness :
    urlEscape "x\ry" =
      urlparseGeturl ⟨("x\ry").data.takeWhile (fun c => !isLineBoundary c)⟩ ∧
    urlEscape "ab" = urlparseGeturl "ab" :=
  ⟨(C8_truncation_amended "x\ry").1 (by decide),
   (C8_truncation_amended "ab").2.1 (by decide)⟩
